import Mathlib

/-!
Verification of the Dilated Pooling Engine
(`onnx_tf/handlers/backend/dilated_maxpooling.py`).

The development shallowly embeds the index and shape arithmetic of the
`DilatedPooling` class: machine integers are modelled by `Int`, the Python
floor division `//` by `Int.fdiv`, the float `ceil`/`floor` of exact
int64 quotients by `Int.ceil`/`Int.floor` over `ℚ`, tensors of the rank-2
examples by row-major `List (List Int)` matrices, and the host TensorFlow
primitives (`tf.nn.pool`, `tf.nn.max_pool_with_argmax`, `tf.pad`) by
explicit functions modelled from their documented contracts.
-/

namespace OnnxTf

/-- Per-axis pooling parameters: input spatial size `n`, kernel size `k`,
dilation `d` and stride `s`, for one spatial axis handled by
`DilatedPooling`. -/
structure AxisP where
  n : Int
  k : Int
  d : Int
  s : Int
deriving DecidableEq, Repr

/-- Effective filter extent `(kernel - 1) * dilation + 1`, as computed
throughout `dilated_maxpooling.py`. -/
def filterSize (k d : Int) : Int := (k - 1) * d + 1

/-- Shallow embedding of `DilatedPooling._calc_input_ind`:
`input_ind = (ind // k) * (s - k * d) + ind * d`, with Python floor
division embedded as `Int.fdiv`. -/
def calc_input_ind (ind k d s : Int) : Int :=
  (Int.fdiv ind k) * (s - k * d) + ind * d

/-- Reduced output length along one axis as computed in
`_reduce_dilations`: `(((n - filter_size) // s) + 1) * k`. -/
def axisOutputSize (a : AxisP) : Int :=
  (Int.fdiv (a.n - filterSize a.k a.d) a.s + 1) * a.k

/-- The per-axis local index vector of `_reduce_dilations`:
`tf.range(output_size)` mapped through `_calc_input_ind`. -/
def localInd (a : AxisP) : List Int :=
  (List.range (axisOutputSize a).toNat).map
    (fun i => calc_input_ind (Int.ofNat i) a.k a.d a.s)

/-- Shallow embedding of `DilatedPooling._tf_product`: every element of `b`
is prepended to every row of `a`, with the elements of `b` varying
slowest (row `i * a.length + j` of the result is `b[i] :: a[j]`, exactly
the tile/reshape/concat dance of the source). -/
def tf_product (a : List (List Int)) (b : List Int) : List (List Int) :=
  b.flatMap (fun bi => a.map (fun row => bi :: row))

/-- Initial gather index of `_reduce_dilations`: one single-entry row per
channel (`tf.range(channel_num)` expanded to a column vector). -/
def channelRows (c : Int) : List (List Int) :=
  (List.range c.toNat).map (fun i => [(Int.ofNat i)])

/-- The gather-index rows built by the loop of `_reduce_dilations`.  The
source iterates spatial axes in reverse order
(`for dim in range(spatial_size - 1, -1, -1)`), combining the running row
set with each new axis via `_tf_product`; hence axis 0 is combined last
and varies slowest, and each row lists the per-axis input indices in
original axis order followed by the channel. -/
def gatherRows (axes : List AxisP) (c : Int) : List (List Int) :=
  match axes with
  | [] => channelRows c
  | a :: rest => tf_product (gatherRows rest c) (localInd a)

/-- The `output_shape` list built by `_reduce_dilations`: it starts from
`[batch]`, appends the reduced length of each axis while iterating axes in
reverse order, then appends the channel count.  Consequently the spatial
entries appear in reversed axis order. -/
def output_shape (batch : Int) (axes : List AxisP) (c : Int) : List Int :=
  batch :: ((axes.map axisOutputSize).reverse ++ [c])

/-- One `tf.gather_nd` lookup for a rank-2, single-batch, single-channel
input: a gather row `[r, c, channel]` selects element `(r, c)` of the
input matrix. -/
def gatherAt (inp : List (List Int)) (row : List Int) : Int :=
  match row with
  | [r, c, _] => (inp.getD r.toNat []).getD c.toNat 0
  | _ => 0

/-- Row-major reshape of a flat list into an `h × w` matrix
(`tf.reshape`). -/
def reshapeMat (h w : Nat) (flat : List Int) : List (List Int) :=
  (List.range h).map (fun i =>
    (List.range w).map (fun j => flat.getD (i * w + j) 0))

/-- The two `AxisP` records of a rank-2 single-batch single-channel input
matrix: axis 0 ranges over the rows, axis 1 over the columns. -/
def mkAxes2 (inp : List (List Int)) (k0 k1 d0 d1 s0 s1 : Int) : List AxisP :=
  [⟨inp.length, k0, d0, s0⟩, ⟨(inp.headD []).length, k1, d1, s1⟩]

/-- Shallow embedding of `DilatedPooling._reduce_dilations` for a rank-2,
single-batch, single-channel input: gather the input values selected by
`gatherRows` (flat, channel fastest, axis 0 slowest) and reshape the flat
result to `output_shape` — whose two spatial entries are
`[output_shape[1], output_shape[2]] = [L_2, L_1]`, i.e. in reversed axis
order. -/
def reduce_dilations2 (inp : List (List Int)) (k0 k1 d0 d1 s0 s1 : Int) :
    List (List Int) :=
  let axes := mkAxes2 inp k0 k1 d0 d1 s0 s1
  let flat := (gatherRows axes 1).map (gatherAt inp)
  let os := output_shape 1 axes 1
  reshapeMat (os.getD 1 0).toNat (os.getD 2 0).toNat flat

/-- Maximum of a list of integers (`0` for the empty list; every use below
is on a nonempty pooling window). -/
def listMax : List Int → Int
  | [] => 0
  | x :: xs => xs.foldl max x

/-- Modelled from the spec: the host primitive
`pool(tensor, window_shape, strides, padding=VALID, MAX)` on a rank-2,
single-batch, single-channel tensor — ordinary (non-dilated) max pooling
with VALID placement. -/
def tf_pool_valid_max2 (m : List (List Int)) (w0 w1 t0 t1 : Int) :
    List (List Int) :=
  let hh : Int := m.length
  let ww : Int := (m.headD []).length
  let oh := (Int.fdiv (hh - w0) t0 + 1).toNat
  let ow := (Int.fdiv (ww - w1) t1 + 1).toNat
  (List.range oh).map (fun p =>
    (List.range ow).map (fun q =>
      listMax ((List.range w0.toNat).flatMap (fun i =>
        (List.range w1.toNat).map (fun j =>
          (m.getD (p * t0.toNat + i) []).getD (q * t1.toNat + j) 0)))))

/-- Dilated max pooling stated directly from the spec: output position
`(p, q)` is the maximum of the input elements at
`(p*s0 + i*d0, q*s1 + j*d1)` for `i < k0`, `j < k1`, with VALID window
placement.  This is the specification-side definition the custom path is
claimed to refine. -/
def dilatedMaxPoolSpec2 (m : List (List Int)) (k0 k1 d0 d1 s0 s1 : Int) :
    List (List Int) :=
  let hh : Int := m.length
  let ww : Int := (m.headD []).length
  let oh := (Int.fdiv (hh - filterSize k0 d0) s0 + 1).toNat
  let ow := (Int.fdiv (ww - filterSize k1 d1) s1 + 1).toNat
  (List.range oh).map (fun p =>
    (List.range ow).map (fun q =>
      listMax ((List.range k0.toNat).flatMap (fun i =>
        (List.range k1.toNat).map (fun j =>
          (m.getD (p * s0.toNat + i * d0.toNat) []).getD
            (q * s1.toNat + j * d1.toNat) 0)))))

/-- The 4×4 input of the documented reduction example (one batch, one
channel). -/
def exampleInput4 : List (List Int) :=
  [[0, 1, 2, 3], [4, 5, 6, 7], [8, 9, 10, 11], [12, 13, 14, 15]]

/-- C4: on the 4×4 example with kernel `[2,2]`, dilations `[2,2]`, strides
`[1,1]`, `_reduce_dilations` produces `[[0,2,1,3],[8,10,9,11],[4,6,5,7],
[12,14,13,15]]`, and pooling that result with window = strides = `[2,2]`
yields `[[10,11],[14,15]]`. -/
theorem c4_reduce_example :
    reduce_dilations2 exampleInput4 2 2 2 2 1 1
        = [[0, 2, 1, 3], [8, 10, 9, 11], [4, 6, 5, 7], [12, 14, 13, 15]]
      ∧ tf_pool_valid_max2
          [[0, 2, 1, 3], [8, 10, 9, 11], [4, 6, 5, 7], [12, 14, 13, 15]]
          2 2 2 2
        = [[10, 11], [14, 15]] := by
  decide

/-- A 6×3 input (one batch, one channel) exercising the custom pooling
path with unequal reduced lengths per axis: with kernel `[2,2]`,
dilations `[2,2]`, strides `[3,3]` the reduced lengths are `L_1 = 4` and
`L_2 = 2`. -/
def inputC1 : List (List Int) :=
  [[0, 1, 2], [3, 4, 5], [100, 6, 7], [8, 9, 10], [11, 12, 13],
   [14, 15, 16]]

/-- C1 (evaluation at the failing input): on `inputC1` with kernel
`[2,2]`, dilations `[2,2]`, strides `[3,3]` (a configuration that reaches
the custom path: both strides and dilations are non-trivial), pooling the
`_reduce_dilations` output with window = strides = kernel and VALID
padding yields `[[10, 100]]`, while dilated max pooling applied directly
yields `[[100], [16]]` — the two disagree in both shape and values,
because `_reduce_dilations` reshapes the gathered values to the reversed
spatial shape `[batch, L_2, L_1, channels]`. -/
theorem c1_custom_path_differs :
    tf_pool_valid_max2 (reduce_dilations2 inputC1 2 2 2 2 3 3) 2 2 2 2
        = [[10, 100]]
      ∧ dilatedMaxPoolSpec2 inputC1 2 2 2 2 3 3 = [[100], [16]]
      ∧ tf_pool_valid_max2 (reduce_dilations2 inputC1 2 2 2 2 3 3) 2 2 2 2
          ≠ dilatedMaxPoolSpec2 inputC1 2 2 2 2 3 3 := by
  decide

/-- A 4×2 input (one batch, one channel) whose reduced lengths with
kernel `[2,1]`, dilations `[2,1]`, strides `[1,1]` are `L_1 = 4` and
`L_2 = 2`. -/
def inputC2 : List (List Int) := [[0, 1], [2, 3], [5, 4], [6, 7]]

/-- C3 (evaluation at the failing input): the claimed output layout of
`_reduce_dilations` is `[batch, L_1, ..., L_R, channels]` with the axes
in original order; on the 4×2 input with kernel `[2,1]`, dilations
`[2,1]`, strides `[1,1]` the reduced lengths are `[L_1, L_2] = [4, 2]`,
but the code builds `output_shape = [1, 2, 4, 1]` (spatial axes
reversed), and the element at position `(1, 0)` of the produced tensor is
`2` whereas the input element the dilated window would touch there
(`input[_calc_input_ind 1, _calc_input_ind 0]`) is `5`. -/
theorem c3_output_layout_reversed :
    (mkAxes2 inputC2 2 1 2 1 1 1).map axisOutputSize = [4, 2]
      ∧ output_shape 1 (mkAxes2 inputC2 2 1 2 1 1 1) 1 = [1, 2, 4, 1]
      ∧ output_shape 1 (mkAxes2 inputC2 2 1 2 1 1 1) 1
          ≠ 1 :: ((mkAxes2 inputC2 2 1 2 1 1 1).map axisOutputSize ++ [1])
      ∧ ((reduce_dilations2 inputC2 2 1 2 1 1 1).getD 1 []).getD 0 0 = 2
      ∧ gatherAt inputC2 [calc_input_ind 1 2 2 1, calc_input_ind 0 1 1 1, 0]
          = 5
      ∧ ((reduce_dilations2 inputC2 2 1 2 1 1 1).getD 1 []).getD 0 0
          ≠ gatherAt inputC2
              [calc_input_ind 1 2 2 1, calc_input_ind 0 1 1 1, 0] := by
  decide

/-- Helper for `strStarts`: whether the second character list is an
initial segment of the first. -/
def charListStarts : List Char → List Char → Bool
  | _, [] => true
  | [], _ :: _ => false
  | a :: as, p :: ps => a == p && charListStarts as ps

/-- The Python `str.lower()` used on padding mode strings, embedded as a
character-by-character `Char.toLower` map. -/
def strLower (s : String) : String := ⟨s.data.map Char.toLower⟩

/-- The Python `str.startswith(pre)` used on padding mode strings. -/
def strStarts (s pre : String) : Bool := charListStarts s.data pre.data

/-- The `padding` attribute of `DilatedPooling`: either an explicit list
of `2 R` pad amounts (`type(self.padding) is list` in the source) or a
mode string such as `"VALID"`, `"SAME_UPPER"`, `"SAME_LOWER"`. -/
inductive Padding where
  | explicitPads (p : List Int)
  | mode (s : String)
deriving DecidableEq, Repr

/-- Whether the padding attribute is an explicit list
(`type(self.padding) is list`). -/
def paddingIsList : Padding → Bool
  | Padding.explicitPads _ => true
  | Padding.mode _ => false

/-- Whether the padding mode string starts with `"same"` after lowering
(`self.padding.lower().startswith("same")`); `false` for explicit
lists. -/
def paddingStartsSame : Padding → Bool
  | Padding.explicitPads _ => false
  | Padding.mode s => strStarts (strLower s) ("same")

/-- The total SAME padding of one axis, as computed inside
`DilatedPooling._calc_pads_same`:
`out_size = ceil(in_size / stride)` followed by
`pad_along_axis = max((out_size - 1) * stride + filter_size - in_size, 0)`.
The float `ceil` of the source (exact on int64 values) is embedded as
`Int.ceil` over `ℚ`. -/
def pad_along_axis_same (a : AxisP) : Int :=
  max ((⌈(a.n : ℚ) / (a.s : ℚ)⌉ - 1) * a.s + filterSize a.k a.d - a.n) 0

/-- The loop body of `DilatedPooling._calc_pads_same` for one axis:
`pad_begin = ceil(pad_along_axis / 2)` when the mode string lowers to
`"same_lower"` and `floor(pad_along_axis / 2)` otherwise, and
`pad_end = pad_along_axis - pad_begin`. -/
def calc_pads_same_axis (padding : String) (a : AxisP) : List Int :=
  let pad_along := pad_along_axis_same a
  let pad_begin : Int :=
    if strLower padding == "same_lower" then ⌈(pad_along : ℚ) / 2⌉
    else ⌊(pad_along : ℚ) / 2⌋
  [pad_begin, pad_along - pad_begin]

/-- Shallow embedding of `DilatedPooling._calc_pads_same`: the per-axis
loop, producing the interleaved list `[lo_1, hi_1, ..., lo_R, hi_R]`. -/
def calc_pads_same (padding : String) (axes : List AxisP) : List Int :=
  axes.flatMap (calc_pads_same_axis padding)

/-- Shallow embedding of `DilatedPooling._calc_pads_explicit`: the ONNX
pad list `[lo_1, ..., lo_R, hi_1, ..., hi_R]` is rearranged into the
interleaved `[lo_1, hi_1, ..., lo_R, hi_R]`. -/
def calc_pads_explicit (p : List Int) (r : Nat) : List Int :=
  (List.range r).flatMap (fun i => [p.getD i 0, p.getD (i + r) 0])

/-- The loop body of `DilatedPooling._calc_pads_ceil_mode` for one axis:
`out_size = (dim_size - filter_size) / stride` (true division),
`pad_size = ceil(out_size) - floor(out_size)`, and the contribution is
`[0, pad_size * stride]` (trailing only). -/
def calc_pads_ceil_mode_axis (a : AxisP) : List Int :=
  let fs := filterSize a.k a.d
  let out_size : ℚ := ((a.n - fs : Int) : ℚ) / ((a.s : Int) : ℚ)
  let pad_size : Int := ⌈out_size⌉ - ⌊out_size⌋
  [0, pad_size * a.s]

/-- Shallow embedding of `DilatedPooling._calc_pads_ceil_mode`. -/
def calc_pads_ceil_mode (axes : List AxisP) : List Int :=
  axes.flatMap calc_pads_ceil_mode_axis

/-- Per-axis input sizes updated by the pads computed so far, as in
`_calc_pads`:
`new_spatial_shape[i] = in_spatial_shape[i] + pads[2 i] + pads[2 i + 1]`.
The pads list is consumed two entries per axis. -/
def newAxes : List AxisP → List Int → List AxisP
  | a :: rest, lo :: hi :: ps => { a with n := a.n + lo + hi } :: newAxes rest ps
  | _, _ => []

/-- Shallow embedding of `DilatedPooling._calc_pads`: start from zeros,
add the explicit or SAME pads, and when `ceil_mode` is set and the
padding is an explicit list or a mode not starting with `"same"`, add the
ceil-mode pads computed on the spatial shape enlarged by the pads
obtained so far. -/
def calc_pads (padding : Padding) (ceil_mode : Bool) (axes : List AxisP) :
    List Int :=
  let r := axes.length
  let pads0 : List Int := List.replicate (2 * r) 0
  let pads1 : List Int :=
    match padding with
    | Padding.explicitPads p =>
        List.zipWith (fun x y => x + y) pads0 (calc_pads_explicit p r)
    | Padding.mode s =>
        if strStarts (strLower s) ("same") then
          List.zipWith (fun x y => x + y) pads0 (calc_pads_same s axes)
        else pads0
  if ceil_mode && (paddingIsList padding || !paddingStartsSame padding) then
    List.zipWith (fun x y => x + y) pads1
      (calc_pads_ceil_mode (newAxes axes pads1))
  else pads1

/-- The pads computed by `DilatedPooling._pad_input`: when `ceil_mode` is
off and the padding is the explicit all-zero list or exactly the string
`"VALID"`, the pads are all zero without calling `_calc_pads`; otherwise
they are `_calc_pads`.  (The method also pads the input tensor itself;
the padded tensor is built separately by `padMat`.) -/
def pad_input_pads (padding : Padding) (ceil_mode : Bool)
    (axes : List AxisP) : List Int :=
  if !ceil_mode
      && (padding == Padding.explicitPads (List.replicate (2 * axes.length) 0)
          || padding == Padding.mode ("VALID")) then
    List.replicate (2 * axes.length) 0
  else calc_pads padding ceil_mode axes

/-- Stand-in for the `-inf` padding constant used for MAX pooling (the
concrete evaluations below only use zero pads, so this value never
appears in any window). -/
def negInf : Int := -(2 ^ 62)

/-- Modelled from the spec: `tf.pad` with constant value `negInf` on a
rank-2, single-batch, single-channel tensor, with pads
`[lo_1, hi_1, lo_2, hi_2]`. -/
def padMat (inp : List (List Int)) (pads : List Int) : List (List Int) :=
  let p0 := (pads.getD 0 0).toNat
  let p1 := (pads.getD 1 0).toNat
  let p2 := (pads.getD 2 0).toNat
  let p3 := (pads.getD 3 0).toNat
  let hh := inp.length
  let ww := (inp.headD []).length
  (List.range (p0 + hh + p1)).map (fun i =>
    (List.range (p2 + ww + p3)).map (fun j =>
      if p0 ≤ i ∧ i < p0 + hh ∧ p2 ≤ j ∧ j < p2 + ww then
        (inp.getD (i - p0) []).getD (j - p2) 0
      else negInf))

/-- Modelled from the spec: `tf.nn.max_pool_with_argmax` on a rank-2,
single-batch, single-channel tensor with `ksize = strides = [w0, w1]` and
VALID padding.  For each output position it returns the maximum of the
window and the flattened index `(y * width + x) * channels + channel` of
the first position attaining it (`width` is the width of the tensor as
shaped, `channels = 1`, and the batch is not included in the index). -/
def tf_max_pool_with_argmax2 (m : List (List Int)) (w0 w1 : Int) :
    List (List Int) × List (List Int) :=
  let hh : Int := m.length
  let ww : Int := (m.headD []).length
  let oh := (Int.fdiv (hh - w0) w0 + 1).toNat
  let ow := (Int.fdiv (ww - w1) w1 + 1).toNat
  let cell := fun (p q : Nat) =>
    let cands := (List.range w0.toNat).flatMap (fun i =>
      (List.range w1.toNat).map (fun j =>
        let y := p * w0.toNat + i
        let x := q * w1.toNat + j
        ((m.getD y []).getD x 0, (Int.ofNat (y * ww.toNat + x)))))
    match cands with
    | [] => ((0 : Int), (0 : Int))
    | c :: cs =>
        cs.foldl (fun (acc c2 : Int × Int) =>
          if c2.1 > acc.1 then c2 else acc) c
  ((List.range oh).map (fun p => (List.range ow).map (fun q => (cell p q).1)),
   (List.range oh).map (fun p => (List.range ow).map (fun q => (cell p q).2)))

/-- Shallow embedding of `DilatedPooling._calc_orig_ind` (rank 2): the
flattened argmax index over the reduced tensor is decomposed with
`num_channels` and `output_width = output_shape[2]`, the row and column
are mapped back through `_calc_input_ind`, the pad offsets `pads[0]` and
`pads[2]` are subtracted, and the result is re-flattened with the
original input width.  The Python `//` is `Int.fdiv` and the source
implements `a % b` as `a - (a // b) * b`. -/
def calc_orig_ind (ind num_channels output_width in_width : Int)
    (k0 d0 s0 k1 d1 s1 p0 p2 : Int) : Int :=
  let ind1 := Int.fdiv ind num_channels
  let inRow := Int.fdiv ind1 output_width
  let inCol := ind1 - (Int.fdiv ind1 output_width) * output_width
  let ind_channel := ind - ind1 * num_channels
  let row := calc_input_ind inRow k0 d0 s0 - p0
  let col := calc_input_ind inCol k1 d1 s1 - p2
  num_channels * (row * in_width + col) + ind_channel

/-- The custom branch of `DilatedPooling.dilated_maxpool_with_argmax`
(taken when the dilations are non-trivial or the custom implementation is
forced), for a rank-2, single-batch, single-channel input: pad the input
(`_pad_input`), reduce the dilations, pool with argmax using
`ksize = strides = kernel_shape` and VALID padding, then remap every
index with `_calc_orig_ind`, whose `output_width` is `output_shape[2]`
and whose `in_width` is the original (unpadded) input width. -/
def dilated_maxpool_with_argmax_custom2 (inp : List (List Int))
    (k0 k1 d0 d1 s0 s1 : Int) (padding : Padding) (ceil_mode : Bool) :
    List (List Int) × List (List Int) :=
  let axes0 := mkAxes2 inp k0 k1 d0 d1 s0 s1
  let pads := pad_input_pads padding ceil_mode axes0
  let padded := padMat inp pads
  let m := reduce_dilations2 padded k0 k1 d0 d1 s0 s1
  let pooled_ind := tf_max_pool_with_argmax2 m k0 k1
  let axes := mkAxes2 padded k0 k1 d0 d1 s0 s1
  let ow := (output_shape 1 axes 1).getD 2 0
  let in_width : Int := (inp.headD []).length
  (pooled_ind.1,
   pooled_ind.2.map (fun rw => rw.map (fun i =>
     calc_orig_ind i 1 ow in_width k0 d0 s0 k1 d1 s1
       (pads.getD 0 0) (pads.getD 2 0))))

/-- Value of the original single-channel input matrix at a TF flattened
index `(y * width + x) * channels + channel` with `channels = 1`. -/
def origFlatLookup (inp : List (List Int)) (f : Int) : Int :=
  let w : Int := (inp.headD []).length
  let y := Int.fdiv f w
  (inp.getD y.toNat []).getD (f - y * w).toNat 0

/-- C2 (evaluation at the failing input): on the 4×2 input `inputC2` with
kernel `[2,1]`, dilations `[2,1]` (non-trivial, so the custom argmax path
runs), strides `[1,1]`, VALID padding and no ceil mode,
`dilated_maxpool_with_argmax` returns pooled value `2` at output position
`(0,0)` together with remapped index `4`, but gathering the original
(unpadded) input at flattened index `4` yields `5` — the returned index
does not address the element whose value was returned. -/
theorem c2_argmax_roundtrip_fails :
    ((dilated_maxpool_with_argmax_custom2 inputC2 2 1 2 1 1 1
        (Padding.mode ("VALID")) false).1.getD 0 []).getD 0 0 = 2
      ∧ ((dilated_maxpool_with_argmax_custom2 inputC2 2 1 2 1 1 1
            (Padding.mode ("VALID")) false).2.getD 0 []).getD 0 0 = 4
      ∧ origFlatLookup inputC2 4 = 5
      ∧ origFlatLookup inputC2
            (((dilated_maxpool_with_argmax_custom2 inputC2 2 1 2 1 1 1
                (Padding.mode ("VALID")) false).2.getD 0 []).getD 0 0)
          ≠ ((dilated_maxpool_with_argmax_custom2 inputC2 2 1 2 1 1 1
                (Padding.mode ("VALID")) false).1.getD 0 []).getD 0 0 := by
  decide

/-- Floor of an exact integer quotient over `ℚ` is euclidean division by a
positive divisor. -/
theorem floorQ_intCast_div (a b : Int) (hb : 0 < b) :
    ⌊(a : ℚ) / (b : ℚ)⌋ = a / b := by
  have h1 : ((b.toNat : ℕ) : Int) = b := Int.toNat_of_nonneg hb.le
  have h2 : ((b.toNat : ℕ) : ℚ) = (b : ℚ) := by
    exact_mod_cast congrArg (fun z : Int => (z : ℚ)) h1
  calc ⌊(a : ℚ) / (b : ℚ)⌋ = ⌊(a : ℚ) / ((b.toNat : ℕ) : ℚ)⌋ := by rw [h2]
    _ = a / ((b.toNat : ℕ) : Int) := Rat.floor_intCast_div_natCast a b.toNat
    _ = a / b := by rw [h1]

/-- Ceiling of an exact integer quotient over `ℚ`, expressed through
euclidean division by a positive divisor. -/
theorem ceilQ_intCast_div (a b : Int) (hb : 0 < b) :
    ⌈(a : ℚ) / (b : ℚ)⌉ = -((-a) / b) := by
  have h : ⌊((-a : Int) : ℚ) / (b : ℚ)⌋ = (-a) / b := floorQ_intCast_div (-a) b hb
  have h2 : ((-a : Int) : ℚ) = -(a : ℚ) := by push_cast; ring
  rw [h2, neg_div, Int.floor_neg] at h
  omega

/-- For a positive divisor, the gap between the rounded-up and rounded-down
euclidean quotients is the divisibility indicator. -/
theorem neg_ediv_sub_ediv (a b : Int) (hb : 0 < b) :
    -((-a) / b) - a / b = if b ∣ a then 0 else 1 := by
  have hadd : b * (a / b) + a % b = a := Int.ediv_add_emod a b
  have hadd2 : b * ((-a) / b) + (-a) % b = -a := Int.ediv_add_emod (-a) b
  have h1 : 0 ≤ a % b := Int.emod_nonneg a hb.ne'
  have h2 : a % b < b := Int.emod_lt_of_pos a hb
  have h3 : 0 ≤ (-a) % b := Int.emod_nonneg (-a) hb.ne'
  have h4 : (-a) % b < b := Int.emod_lt_of_pos (-a) hb
  by_cases hd : b ∣ a
  · have e1 : a % b = 0 := Int.emod_eq_zero_of_dvd hd
    have e2 : (-a) % b = 0 := Int.emod_eq_zero_of_dvd (dvd_neg.mpr hd)
    have hz : b * ((-a) / b + a / b) = 0 := by nlinarith [hadd, hadd2]
    have hz2 : (-a) / b + a / b = 0 := by
      rcases mul_eq_zero.mp hz with h | h
      · exact absurd h hb.ne'
      · exact h
    simp only [if_pos hd]
    linarith
  · have e1 : a % b ≠ 0 := fun h => hd (Int.dvd_iff_emod_eq_zero.mpr h)
    have e2 : (-a) % b ≠ 0 := by
      intro h
      exact hd (dvd_neg.mp (Int.dvd_iff_emod_eq_zero.mpr h))
    have hr : 0 < a % b := lt_of_le_of_ne h1 (Ne.symm e1)
    have hr2 : 0 < (-a) % b := lt_of_le_of_ne h3 (Ne.symm e2)
    have hsum : b * ((-a) / b + a / b) = -((-a) % b + a % b) := by
      nlinarith [hadd, hadd2]
    have hq1 : (-a) / b + a / b < 0 := by
      by_contra hS
      push_neg at hS
      have h5 : 0 ≤ b * ((-a) / b + a / b) := mul_nonneg hb.le hS
      linarith
    have hq2 : -2 < (-a) / b + a / b := by
      by_contra hS
      push_neg at hS
      have h5 : b * ((-a) / b + a / b) ≤ b * (-2) :=
        mul_le_mul_of_nonneg_left hS hb.le
      linarith
    have hq3 : (-a) / b + a / b = -1 := by linarith
    simp only [if_neg hd]
    linarith

/-- Ceiling minus floor of an exact integer quotient is the divisibility
indicator. -/
theorem ceil_sub_floor_div (a b : Int) (hb : 0 < b) :
    ⌈(a : ℚ) / (b : ℚ)⌉ - ⌊(a : ℚ) / (b : ℚ)⌋ = if b ∣ a then 0 else 1 := by
  rw [ceilQ_intCast_div a b hb, floorQ_intCast_div a b hb]
  exact neg_ediv_sub_ediv a b hb

/-- C5: for every axis with SAME-mode padding, the total pad is
`max((ceil(in_size / stride) - 1) * stride + (kernel - 1) * dilation + 1
- in_size, 0)`; `pad_begin` is the total rounded up to the half for
SAME_LOWER and rounded down for SAME_UPPER, `pad_end` is the remainder,
and when the total is odd the extra unit goes to the beginning of the
axis for SAME_LOWER and to the end for SAME_UPPER. -/
theorem c5_same_split (n k d s : Int) :
    pad_along_axis_same ⟨n, k, d, s⟩
        = max ((⌈(n : ℚ) / (s : ℚ)⌉ - 1) * s + ((k - 1) * d + 1) - n) 0
      ∧ calc_pads_same_axis ("SAME_LOWER") ⟨n, k, d, s⟩
          = [⌈(pad_along_axis_same ⟨n, k, d, s⟩ : ℚ) / 2⌉,
             pad_along_axis_same ⟨n, k, d, s⟩
               - ⌈(pad_along_axis_same ⟨n, k, d, s⟩ : ℚ) / 2⌉]
      ∧ calc_pads_same_axis ("SAME_UPPER") ⟨n, k, d, s⟩
          = [⌊(pad_along_axis_same ⟨n, k, d, s⟩ : ℚ) / 2⌋,
             pad_along_axis_same ⟨n, k, d, s⟩
               - ⌊(pad_along_axis_same ⟨n, k, d, s⟩ : ℚ) / 2⌋]
      ∧ (pad_along_axis_same ⟨n, k, d, s⟩ % 2 = 1 →
          ⌈(pad_along_axis_same ⟨n, k, d, s⟩ : ℚ) / 2⌉
              = (pad_along_axis_same ⟨n, k, d, s⟩
                  - ⌈(pad_along_axis_same ⟨n, k, d, s⟩ : ℚ) / 2⌉) + 1
            ∧ pad_along_axis_same ⟨n, k, d, s⟩
                - ⌊(pad_along_axis_same ⟨n, k, d, s⟩ : ℚ) / 2⌋
              = ⌊(pad_along_axis_same ⟨n, k, d, s⟩ : ℚ) / 2⌋ + 1) := by
  have hlow : (strLower ("SAME_LOWER") == "same_lower") = true := by decide
  have hup : (strLower ("SAME_UPPER") == "same_lower") = false := by decide
  have h2q : ((2 : ℚ)) = ((2 : Int) : ℚ) := by norm_num
  have ht0 : 0 ≤ pad_along_axis_same ⟨n, k, d, s⟩ := by
    unfold pad_along_axis_same
    exact le_max_right _ _
  refine ⟨rfl, ?_, ?_, ?_⟩
  · simp [calc_pads_same_axis, hlow]
  · simp [calc_pads_same_axis, hup]
  · intro hodd
    have hceil : ⌈(pad_along_axis_same ⟨n, k, d, s⟩ : ℚ) / 2⌉
        = -((-(pad_along_axis_same ⟨n, k, d, s⟩)) / 2) := by
      rw [h2q]
      exact ceilQ_intCast_div _ 2 (by norm_num)
    have hfloor : ⌊(pad_along_axis_same ⟨n, k, d, s⟩ : ℚ) / 2⌋
        = pad_along_axis_same ⟨n, k, d, s⟩ / 2 := by
      rw [h2q]
      exact floorQ_intCast_div _ 2 (by norm_num)
    rw [hceil, hfloor]
    omega

/-- Witness for C5 at a configuration with odd total padding: for
`in_size = 5`, `kernel = 2`, `dilation = 1`, `stride = 2` the total SAME
pad is `1`; SAME_LOWER places it at the beginning, SAME_UPPER at the
end. -/
theorem c5_same_split_witness :
    calc_pads_same_axis ("SAME_LOWER") ⟨5, 2, 1, 2⟩ = [1, 0]
      ∧ calc_pads_same_axis ("SAME_UPPER") ⟨5, 2, 1, 2⟩ = [0, 1] := by
  obtain ⟨h1, h2, h3, h4⟩ := c5_same_split 5 2 1 2
  have h2q : ((2 : ℚ)) = ((2 : Int) : ℚ) := by norm_num
  have e : pad_along_axis_same ⟨5, 2, 1, 2⟩ = 1 := by
    simp only [pad_along_axis_same, filterSize]
    rw [ceilQ_intCast_div 5 2 (by norm_num)]
    decide
  have ec : ⌈((1 : Int) : ℚ) / (2 : ℚ)⌉ = 1 := by
    rw [h2q, ceilQ_intCast_div 1 2 (by norm_num)]
    decide
  have ef : ⌊((1 : Int) : ℚ) / (2 : ℚ)⌋ = 0 := by
    rw [h2q, floorQ_intCast_div 1 2 (by norm_num)]
    decide
  constructor
  · rw [h2, e, ec]
    norm_num
  · rw [h3, e, ef]
    norm_num

/-- Length of a flat-map whose blocks all have two elements. -/
theorem length_flatMap_pairs {α : Type} (l : List α) (f : α → List Int)
    (h : ∀ x, (f x).length = 2) : (l.flatMap f).length = 2 * l.length := by
  induction l with
  | nil => simp
  | cons a t ih =>
      simp only [List.flatMap_cons, List.length_append, h a, ih,
        List.length_cons]
      ring

/-- Indexing a flat-map whose blocks all have two elements. -/
theorem getD_flatMap_pairs {α : Type} (dflt : α) (f : α → List Int)
    (h : ∀ x, (f x).length = 2) :
    ∀ (l : List α) (i j : ℕ), i < l.length → j < 2 →
      (l.flatMap f).getD (2 * i + j) 0 = (f (l.getD i dflt)).getD j 0 := by
  intro l
  induction l with
  | nil => intro i j hi _; exact absurd hi (by simp)
  | cons a t ih =>
      intro i j hi hj
      cases i with
      | zero =>
          simp only [List.flatMap_cons, Nat.mul_zero, Nat.zero_add]
          rw [List.getD_append _ _ _ _ (by rw [h a]; omega)]
          rfl
      | succ i2 =>
          rw [List.flatMap_cons,
            List.getD_append_right _ _ _ _ (by rw [h a]; omega)]
          have harith : 2 * (i2 + 1) + j - (f a).length = 2 * i2 + j := by
            rw [h a]; omega
          rw [harith]
          exact ih i2 j (by simpa using hi) hj

/-- Indexing a `zipWith` of integer addition. -/
theorem getD_zipWith_add :
    ∀ (xs ys : List Int) (i : ℕ), i < xs.length → i < ys.length →
      (List.zipWith (fun x y => x + y) xs ys).getD i 0
        = xs.getD i 0 + ys.getD i 0 := by
  intro xs
  induction xs with
  | nil => intro ys i hi _; exact absurd hi (by simp)
  | cons x xs ih =>
      intro ys i hx hy
      cases ys with
      | nil => exact absurd hy (by simp)
      | cons y ys =>
          cases i with
          | zero => rfl
          | succ i2 =>
              simp only [List.zipWith_cons_cons, List.getD_cons_succ]
              exact ih ys i2 (by simpa using hx) (by simpa using hy)

/-- Adding a zero list elementwise is the identity. -/
theorem zipWith_add_replicate_zero :
    ∀ l : List Int,
      List.zipWith (fun x y => x + y) (List.replicate l.length 0) l = l := by
  intro l
  induction l with
  | nil => rfl
  | cons a t ih => simp [List.replicate_succ, ih]

/-- `newAxes` with all-zero pads is the identity. -/
theorem newAxes_replicate_zero :
    ∀ axes : List AxisP,
      newAxes axes (List.replicate (2 * axes.length) 0) = axes := by
  intro axes
  induction axes with
  | nil => rfl
  | cons a t ih =>
      obtain ⟨an, ak, ad, as⟩ := a
      have h2 : 2 * (t.length + 1) = 2 * t.length + 1 + 1 := by ring
      simp only [List.length_cons, h2, List.replicate_succ, newAxes,
        add_zero]
      exact congrArg (List.cons _) ih

/-- Length of `newAxes`. -/
theorem newAxes_length :
    ∀ (axes : List AxisP) (ps : List Int), ps.length = 2 * axes.length →
      (newAxes axes ps).length = axes.length := by
  intro axes
  induction axes with
  | nil => intro ps _; cases ps <;> rfl
  | cons a t ih =>
      intro ps hp
      match ps with
      | [] => simp at hp
      | [p0] => simp at hp; omega
      | p0 :: p1 :: ps2 =>
          simp only [newAxes, List.length_cons]
          rw [ih ps2 (by simp at hp; omega)]

/-- Elementwise description of `newAxes`. -/
theorem newAxes_getD :
    ∀ (axes : List AxisP) (ps : List Int), ps.length = 2 * axes.length →
      ∀ i : ℕ, i < axes.length →
        (newAxes axes ps).getD i ⟨0, 0, 0, 0⟩
          = { axes.getD i ⟨0, 0, 0, 0⟩ with
              n := (axes.getD i ⟨0, 0, 0, 0⟩).n + ps.getD (2 * i) 0
                     + ps.getD (2 * i + 1) 0 } := by
  intro axes
  induction axes with
  | nil => intro ps _ i hi; exact absurd hi (by simp)
  | cons a t ih =>
      intro ps hp i hi
      match ps with
      | [] => simp at hp
      | [p0] => simp at hp; omega
      | p0 :: p1 :: ps2 =>
          cases i with
          | zero => rfl
          | succ i2 =>
              have e1 : (p0 :: p1 :: ps2).getD (2 * (i2 + 1)) 0
                  = ps2.getD (2 * i2) 0 := by
                have h3 : 2 * (i2 + 1) = 2 * i2 + 1 + 1 := by ring
                rw [h3, List.getD_cons_succ, List.getD_cons_succ]
              have e2 : (p0 :: p1 :: ps2).getD (2 * (i2 + 1) + 1) 0
                  = ps2.getD (2 * i2 + 1) 0 := by
                have h3 : 2 * (i2 + 1) + 1 = 2 * i2 + 1 + 1 + 1 := by ring
                rw [h3, List.getD_cons_succ, List.getD_cons_succ]
              simp only [newAxes, List.getD_cons_succ, e1, e2]
              exact ih ps2 (by simp at hp; omega) i2 (by simpa using hi)

/-- The per-axis ceil-mode pad is the trailing-only list
`[0, (divisibility indicator) * stride]`. -/
theorem calc_pads_ceil_mode_axis_eq (a : AxisP) (hs : 0 < a.s) :
    calc_pads_ceil_mode_axis a
      = [0, (if a.s ∣ (a.n - filterSize a.k a.d) then 0 else 1) * a.s] := by
  simp only [calc_pads_ceil_mode_axis]
  rw [ceil_sub_floor_div (a.n - filterSize a.k a.d) a.s hs]

/-- The per-axis ceil-mode pad list always has two entries. -/
theorem calc_pads_ceil_mode_axis_length (a : AxisP) :
    (calc_pads_ceil_mode_axis a).length = 2 := rfl

/-- List-level description of `_calc_pads_ceil_mode`. -/
theorem calc_pads_ceil_mode_eq :
    ∀ axes : List AxisP, (∀ a ∈ axes, 0 < a.s) →
      calc_pads_ceil_mode axes
        = axes.flatMap (fun a =>
            [0, (if a.s ∣ (a.n - filterSize a.k a.d) then 0 else 1) * a.s]) := by
  intro axes hs
  induction axes with
  | nil => rfl
  | cons a t ih =>
      simp only [calc_pads_ceil_mode, List.flatMap_cons] at *
      rw [calc_pads_ceil_mode_axis_eq a (hs a (by simp))]
      rw [ih (fun x hx => hs x (by simp [hx]))]

/-- C6 (counterexample): with explicit padding `[1, 0]` (one spatial axis,
`in_size = 4`, `kernel = 2`, `dilation = 1`, `stride = 2`) and
`ceil_mode` on, the code computes the extra trailing pad from the padded
size `4 + 1 + 0 = 5` and returns pads `[1, 2]`, while the claim formula
`(ceil((in_size - filter_size)/stride) - floor(...)) * stride` evaluated
on the unpadded `in_size = 4` yields an extra pad of `0`, i.e. pads
`[1, 0]`. -/
theorem c6_ceil_mode_counterexample :
    calc_pads (Padding.explicitPads [1, 0]) true [⟨4, 2, 1, 2⟩] = [1, 2]
      ∧ ([1, 2] : List Int) ≠ [1, 0]
      ∧ (if (2 : Int) ∣ ((4 : Int) - filterSize 2 1) then (0 : Int) else 1)
          * 2 = 0 := by
  refine ⟨?_, by decide, by decide⟩
  have h1 : calc_pads_ceil_mode_axis ⟨5, 2, 1, 2⟩ = [0, 2] := by
    rw [calc_pads_ceil_mode_axis_eq ⟨5, 2, 1, 2⟩ (by norm_num)]
    decide
  have e1 : calc_pads (Padding.explicitPads [1, 0]) true [⟨4, 2, 1, 2⟩]
      = List.zipWith (fun x y => x + y) [1, 0]
          (calc_pads_ceil_mode_axis ⟨5, 2, 1, 2⟩ ++ []) := rfl
  rw [e1, h1]
  decide

set_option maxHeartbeats 1000000 in
/-- C6 (amended): when `ceil_mode` is on, (a) for VALID padding the pads
are, per axis, a trailing-only extra of `stride` exactly when the stride
does not divide `in_size - filter_size`; (b) for SAME modes ceil mode
adds nothing; (c) for explicit padding the same trailing-only rule is
applied to the padded size `in_size + pad_begin + pad_end` instead of
`in_size`; and (d) the padded VALID output size equals
`ceil((in_size - filter_size) / stride) + 1`. -/
theorem c6_ceil_mode_amended (axes : List AxisP)
    (hs : ∀ a ∈ axes, 0 < a.s) :
    (calc_pads (Padding.mode ("VALID")) true axes
        = axes.flatMap (fun a =>
            [0, (if a.s ∣ (a.n - filterSize a.k a.d) then 0 else 1) * a.s]))
      ∧ (∀ md : String, strStarts (strLower md) ("same") = true →
            calc_pads (Padding.mode md) true axes
              = calc_pads (Padding.mode md) false axes)
      ∧ (∀ p : List Int, p.length = 2 * axes.length →
          ∀ i : ℕ, i < axes.length →
            (calc_pads (Padding.explicitPads p) true axes).getD (2 * i) 0
                = p.getD i 0
              ∧ (calc_pads (Padding.explicitPads p) true axes).getD
                    (2 * i + 1) 0
                  = p.getD (i + axes.length) 0
                    + (if (axes.getD i ⟨0, 0, 0, 0⟩).s ∣
                          ((axes.getD i ⟨0, 0, 0, 0⟩).n + p.getD i 0
                            + p.getD (i + axes.length) 0
                            - filterSize (axes.getD i ⟨0, 0, 0, 0⟩).k
                                (axes.getD i ⟨0, 0, 0, 0⟩).d)
                        then 0 else 1) * (axes.getD i ⟨0, 0, 0, 0⟩).s)
      ∧ (∀ a ∈ axes,
            Int.fdiv (a.n
                + (if a.s ∣ (a.n - filterSize a.k a.d) then 0 else 1) * a.s
                - filterSize a.k a.d) a.s + 1
              = ⌈((a.n - filterSize a.k a.d : Int) : ℚ)
                  / ((a.s : Int) : ℚ)⌉ + 1) := by
  have hvalid : strStarts (strLower ("VALID")) ("same") = false := by decide
  refine ⟨?_, ?_, ?_, ?_⟩
  · simp only [calc_pads, paddingIsList, paddingStartsSame, hvalid,
      Bool.false_or, Bool.not_false, Bool.and_true, Bool.true_and,
      Bool.false_eq_true, if_false, if_true]
    rw [newAxes_replicate_zero axes, calc_pads_ceil_mode_eq axes hs,
      ← length_flatMap_pairs axes
        (fun a =>
          [0, (if a.s ∣ (a.n - filterSize a.k a.d) then 0 else 1) * a.s])
        (fun _ => rfl)]
    exact zipWith_add_replicate_zero _
  · intro md h
    simp only [calc_pads, paddingIsList, paddingStartsSame, h,
      Bool.false_or, Bool.not_true, Bool.and_false, Bool.false_and,
      Bool.false_eq_true, if_true, if_false]
  · intro p hp i hi
    have hflen : (calc_pads_explicit p axes.length).length
        = 2 * axes.length := by
      unfold calc_pads_explicit
      rw [length_flatMap_pairs (List.range axes.length)
        (fun i0 => [p.getD i0 0, p.getD (i0 + axes.length) 0])
        (fun _ => rfl), List.length_range]
    have hpads1 : List.zipWith (fun x y => x + y)
        (List.replicate (2 * axes.length) 0)
        (calc_pads_explicit p axes.length)
        = calc_pads_explicit p axes.length := by
      rw [← hflen]
      exact zipWith_add_replicate_zero _
    have hred : calc_pads (Padding.explicitPads p) true axes
        = List.zipWith (fun x y => x + y) (calc_pads_explicit p axes.length)
            (calc_pads_ceil_mode
              (newAxes axes (calc_pads_explicit p axes.length))) := by
      simp only [calc_pads, paddingIsList, Bool.true_or, Bool.true_and,
        if_true, hpads1]
    have hclen : (calc_pads_ceil_mode
        (newAxes axes (calc_pads_explicit p axes.length))).length
        = 2 * axes.length := by
      unfold calc_pads_ceil_mode
      rw [length_flatMap_pairs
        (newAxes axes (calc_pads_explicit p axes.length))
        calc_pads_ceil_mode_axis calc_pads_ceil_mode_axis_length,
        newAxes_length _ _ hflen]
    have hax : (newAxes axes (calc_pads_explicit p axes.length)).getD i
          ⟨0, 0, 0, 0⟩
        = { axes.getD i ⟨0, 0, 0, 0⟩ with
            n := (axes.getD i ⟨0, 0, 0, 0⟩).n
                   + (calc_pads_explicit p axes.length).getD (2 * i) 0
                   + (calc_pads_explicit p axes.length).getD (2 * i + 1) 0 } :=
      newAxes_getD axes _ hflen i hi
    have hr : (List.range axes.length).getD i 0 = i := by
      rw [List.getD_eq_getElem _ _ (by simpa using hi)]
      simp
    have hpe : ∀ j : ℕ, j < 2 →
        (calc_pads_explicit p axes.length).getD (2 * i + j) 0
          = [p.getD i 0, p.getD (i + axes.length) 0].getD j 0 := by
      intro j hj
      unfold calc_pads_explicit
      rw [getD_flatMap_pairs 0
        (fun i0 => [p.getD i0 0, p.getD (i0 + axes.length) 0])
        (fun _ => rfl) (List.range axes.length) i j (by simpa using hi) hj]
      rw [hr]
    have hce : ∀ j : ℕ, j < 2 →
        (calc_pads_ceil_mode
            (newAxes axes (calc_pads_explicit p axes.length))).getD
           (2 * i + j) 0
          = (calc_pads_ceil_mode_axis
              ((newAxes axes (calc_pads_explicit p axes.length)).getD i
                ⟨0, 0, 0, 0⟩)).getD j 0 := by
      intro j hj
      unfold calc_pads_ceil_mode
      rw [getD_flatMap_pairs ⟨0, 0, 0, 0⟩ calc_pads_ceil_mode_axis
        calc_pads_ceil_mode_axis_length
        (newAxes axes (calc_pads_explicit p axes.length)) i j
        (by rw [newAxes_length _ _ hflen]; exact hi) hj]
    have hmem : axes.getD i ⟨0, 0, 0, 0⟩ ∈ axes := by
      rw [List.getD_eq_getElem _ _ hi]
      exact axes.get_mem i hi
    have hsax : 0 < ((newAxes axes (calc_pads_explicit p axes.length)).getD i
        ⟨0, 0, 0, 0⟩).s := by
      rw [hax]
      show 0 < (axes.getD i ⟨0, 0, 0, 0⟩).s
      exact hs _ hmem
    have hpe0 : (calc_pads_explicit p axes.length).getD (2 * i) 0
        = p.getD i 0 := by
      have h := hpe 0 (by omega)
      simpa using h
    have hpe1 : (calc_pads_explicit p axes.length).getD (2 * i + 1) 0
        = p.getD (i + axes.length) 0 := by
      have h := hpe 1 (by omega)
      simpa using h
    have hca : calc_pads_ceil_mode_axis
        ((newAxes axes (calc_pads_explicit p axes.length)).getD i
          ⟨0, 0, 0, 0⟩)
        = [0, (if (axes.getD i ⟨0, 0, 0, 0⟩).s ∣
                ((axes.getD i ⟨0, 0, 0, 0⟩).n + p.getD i 0
                  + p.getD (i + axes.length) 0
                  - filterSize (axes.getD i ⟨0, 0, 0, 0⟩).k
                      (axes.getD i ⟨0, 0, 0, 0⟩).d)
              then 0 else 1) * (axes.getD i ⟨0, 0, 0, 0⟩).s] := by
      rw [calc_pads_ceil_mode_axis_eq _ hsax, hax]
      simp only [hpe0, hpe1]
    have hce0 : (calc_pads_ceil_mode
        (newAxes axes (calc_pads_explicit p axes.length))).getD (2 * i) 0
        = 0 := by
      have h := hce 0 (by omega)
      rw [hca] at h
      simpa using h
    have hce1 : (calc_pads_ceil_mode
        (newAxes axes (calc_pads_explicit p axes.length))).getD
          (2 * i + 1) 0
        = (if (axes.getD i ⟨0, 0, 0, 0⟩).s ∣
              ((axes.getD i ⟨0, 0, 0, 0⟩).n + p.getD i 0
                + p.getD (i + axes.length) 0
                - filterSize (axes.getD i ⟨0, 0, 0, 0⟩).k
                    (axes.getD i ⟨0, 0, 0, 0⟩).d)
            then 0 else 1) * (axes.getD i ⟨0, 0, 0, 0⟩).s := by
      have h := hce 1 (by omega)
      rw [hca] at h
      simpa using h
    constructor
    · rw [hred,
        getD_zipWith_add _ _ _ (by rw [hflen]; omega) (by rw [hclen]; omega),
        hpe0, hce0, add_zero]
    · rw [hred,
        getD_zipWith_add _ _ _ (by rw [hflen]; omega) (by rw [hclen]; omega),
        hpe1, hce1]
  · intro a ha
    have hsa := hs a ha
    rw [ceilQ_intCast_div (a.n - filterSize a.k a.d) a.s hsa]
    have hind := neg_ediv_sub_ediv (a.n - filterSize a.k a.d) a.s hsa
    by_cases hd : a.s ∣ (a.n - filterSize a.k a.d)
    · rw [if_pos hd] at hind ⊢
      have harr : a.n + 0 * a.s - filterSize a.k a.d
          = a.n - filterSize a.k a.d := by ring
      rw [harr, Int.fdiv_eq_ediv _ hsa.le]
      linarith
    · rw [if_neg hd] at hind ⊢
      have harr : a.n + 1 * a.s - filterSize a.k a.d
          = (a.n - filterSize a.k a.d) + 1 * a.s := by ring
      rw [harr, Int.fdiv_eq_ediv _ hsa.le,
        Int.add_mul_ediv_right _ _ hsa.ne']
      linarith

/-- Witness for the amended C6 at concrete inputs: a VALID axis with
`in_size = 5`, `kernel = 2`, `dilation = 1`, `stride = 2` receives the
trailing pad `2`; SAME_UPPER is unchanged by ceil mode; the explicit-pad
axis of the counterexample receives `begin = 1` and `end = 0 + 2`
(computed from the padded size `5`); and the padded output size matches
the ceiling formula. -/
theorem c6_ceil_mode_amended_witness :
    calc_pads (Padding.mode ("VALID")) true [⟨5, 2, 1, 2⟩] = [0, 2]
      ∧ calc_pads (Padding.mode ("SAME_UPPER")) true [⟨5, 2, 1, 2⟩]
          = calc_pads (Padding.mode ("SAME_UPPER")) false [⟨5, 2, 1, 2⟩]
      ∧ (calc_pads (Padding.explicitPads [1, 0]) true [⟨4, 2, 1, 2⟩]).getD 0 0
          = 1
      ∧ (calc_pads (Padding.explicitPads [1, 0]) true [⟨4, 2, 1, 2⟩]).getD 1 0
          = 2
      ∧ Int.fdiv ((5 : Int)
            + (if (2 : Int) ∣ ((5 : Int) - filterSize 2 1) then 0 else 1) * 2
            - filterSize 2 1) 2 + 1
          = ⌈(((5 : Int) - filterSize 2 1 : Int) : ℚ) / ((2 : Int) : ℚ)⌉
              + 1 := by
  have hs5 : ∀ a ∈ ([⟨5, 2, 1, 2⟩] : List AxisP), 0 < a.s := by
    intro a ha
    simp only [List.mem_singleton] at ha
    rw [ha]
    norm_num
  have hs4 : ∀ a ∈ ([⟨4, 2, 1, 2⟩] : List AxisP), 0 < a.s := by
    intro a ha
    simp only [List.mem_singleton] at ha
    rw [ha]
    norm_num
  obtain ⟨h1, h2, _, h4⟩ := c6_ceil_mode_amended [⟨5, 2, 1, 2⟩] hs5
  obtain ⟨_, _, h3, _⟩ := c6_ceil_mode_amended [⟨4, 2, 1, 2⟩] hs4
  refine ⟨?_, h2 ("SAME_UPPER") (by decide), ?_, ?_, ?_⟩
  · rw [h1]
    decide
  · have h := (h3 [1, 0] (by decide) 0 (by decide)).1
    rw [show (0 : ℕ) = 2 * 0 from rfl, h]
    decide
  · have h := (h3 [1, 0] (by decide) 0 (by decide)).2
    rw [show (1 : ℕ) = 2 * 0 + 1 from rfl, h]
    decide
  · exact h4 ⟨5, 2, 1, 2⟩ (by simp)

/-- The `padding_` string computed at the top of
`DilatedPooling.dilated_maxpool` (and in the non-dilated branch of
`dilated_maxpool_with_argmax`): an explicit list or SAME_LOWER leads to
padding the input and forcing `"VALID"`, SAME_UPPER becomes the native
`"SAME"`, and any other string is passed through unchanged. -/
def paddingArg : Padding → String
  | Padding.explicitPads _ => "VALID"
  | Padding.mode s =>
      if strLower s == "same_lower" then "VALID"
      else if strLower s == "same_upper" then "SAME" else s

/-- The native TensorFlow call issued by `DilatedPooling.dilated_maxpool`:
`tf.nn.dilation2d` (rank-2 fast path, with batch-extended strides and
rates), a direct `tf.nn.pool` (native N-D path), or `tf.nn.pool` on the
dilation-reduced input with window = strides = kernel_shape and VALID
padding (custom path; `samePadded` records whether the custom path padded
the input for SAME first). -/
inductive TFCall where
  | dilation2d (strides rates : List Int) (padding_arg : String)
  | pool (window strides dilation_rate : List Int) (padding_arg : String)
  | customPool (window strides : List Int) (padding_arg : String)
      (samePadded : Bool)
deriving DecidableEq, Repr

/-- Whether the dispatch chose the custom dilation-reduction path. -/
def isCustomCall : TFCall → Bool
  | TFCall.customPool _ _ _ _ => true
  | _ => false

/-- Shallow embedding of the strategy selection of
`DilatedPooling.dilated_maxpool`.  The branch conditions mirror the
source; note that the Python condition
`self.strides == [1]*R or self.dilations == [1]*R and not
force_custom_impl` groups by operator precedence as
`strides == [1]*R or (dilations == [1]*R and not force_custom_impl)`, so
all-ones strides select the native N-D pool even when the custom
implementation is forced. -/
def dilated_maxpool_call (kernel strides dilations : List Int)
    (padding : Padding) (force_custom_impl : Bool) : TFCall :=
  let r := kernel.length
  let padding_ := paddingArg padding
  if kernel.length == 2 && !force_custom_impl then
    TFCall.dilation2d ([1] ++ strides ++ [1]) ([1] ++ dilations ++ [1])
      padding_
  else if strides == List.replicate r 1
      || (dilations == List.replicate r 1 && !force_custom_impl) then
    TFCall.pool kernel strides dilations padding_
  else
    TFCall.customPool kernel kernel ("VALID") (padding_ == "SAME")

/-- C7 (counterexample): with `force_custom_impl = true` but strides all
ones (kernel `[2,2]`, strides `[1,1]`, dilations `[2,2]`, VALID), the
dispatch still selects the native N-D `tf.nn.pool` call, not the custom
path — the `not force_custom_impl` guard binds only to the dilations
test. -/
theorem c7_force_custom_counterexample :
    dilated_maxpool_call [2, 2] [1, 1] [2, 2] (Padding.mode ("VALID")) true
        = TFCall.pool [2, 2] [1, 1] [2, 2] ("VALID")
      ∧ isCustomCall
          (dilated_maxpool_call [2, 2] [1, 1] [2, 2]
            (Padding.mode ("VALID")) true) = false := by
  decide

/-- C7 (amended): with `force_custom_impl = true` the native 2-D primitive
is never used and the custom path runs — pooling the reduced tensor with
window = strides = kernel_shape and VALID padding — provided the strides
are not all ones; all-ones strides still select the native N-D pool. -/
theorem c7_force_custom_amended (kernel strides dilations : List Int)
    (padding : Padding) (h : strides ≠ List.replicate kernel.length 1) :
    dilated_maxpool_call kernel strides dilations padding true
      = TFCall.customPool kernel kernel ("VALID")
          (paddingArg padding == "SAME") := by
  have hb : (strides == List.replicate kernel.length 1) = false :=
    beq_eq_false_iff_ne.mpr h
  simp [dilated_maxpool_call, hb]

/-- Witness for the amended C7: a forced rank-2 configuration with
non-trivial strides takes the custom path, padded for SAME. -/
theorem c7_force_custom_amended_witness :
    dilated_maxpool_call [2, 2] [2, 2] [3, 3] (Padding.mode ("SAME_UPPER"))
        true
      = TFCall.customPool [2, 2] [2, 2] ("VALID") true := by
  have h := c7_force_custom_amended [2, 2] [2, 2] [3, 3]
    (Padding.mode ("SAME_UPPER")) (by decide)
  rw [h]
  decide

/-- C10 (counterexample): for the unknown padding mode string `"BOGUS"`
the engine does not fail at the padding-mode dispatch: `_calc_pads`
proceeds with the zero (VALID-like) default pads, and `dilated_maxpool`
forwards the string unchanged to the native primitive. -/
theorem c10_unknown_mode_counterexample :
    calc_pads (Padding.mode ("BOGUS")) false [⟨5, 2, 1, 1⟩] = [0, 0]
      ∧ dilated_maxpool_call [2, 2] [1, 1] [1, 1] (Padding.mode ("BOGUS"))
          false
        = TFCall.dilation2d [1, 1, 1, 1] [1, 1, 1, 1] ("BOGUS") := by
  constructor
  · decide
  · decide

/-- C10 (amended): a padding mode string outside
{VALID, SAME_UPPER, SAME_LOWER} (and not starting with `"same"` after
lowering) is not rejected by the engine: the padding calculator treats it
as zero padding and the dispatch passes the string through to the native
primitive; there is no UnknownPaddingMode failure in the engine. -/
theorem c10_unknown_mode_amended (s : String)
    (hsame : strStarts (strLower s) ("same") = false)
    (axes : List AxisP) (kernel strides dilations : List Int)
    (hk : kernel.length = 2) :
    calc_pads (Padding.mode s) false axes
        = List.replicate (2 * axes.length) 0
      ∧ dilated_maxpool_call kernel strides dilations (Padding.mode s) false
          = TFCall.dilation2d ([1] ++ strides ++ [1])
              ([1] ++ dilations ++ [1]) s := by
  have hlow : (strLower s == "same_lower") = false := by
    cases hq : strLower s == "same_lower"
    · rfl
    · exfalso
      have he : strLower s = "same_lower" := eq_of_beq hq
      rw [he] at hsame
      exact absurd hsame (by decide)
  have hupp : (strLower s == "same_upper") = false := by
    cases hq : strLower s == "same_upper"
    · rfl
    · exfalso
      have he : strLower s = "same_upper" := eq_of_beq hq
      rw [he] at hsame
      exact absurd hsame (by decide)
  constructor
  · simp only [calc_pads, hsame, Bool.false_and, Bool.false_eq_true,
      if_false]
  · simp [dilated_maxpool_call, paddingArg, hlow, hupp, hk]

/-- Witness for the amended C10 at the concrete mode string `"BOGUS"`. -/
theorem c10_unknown_mode_amended_witness :
    calc_pads (Padding.mode ("BOGUS")) false [⟨7, 3, 2, 2⟩] = [0, 0]
      ∧ dilated_maxpool_call [2, 2] [2, 2] [2, 2] (Padding.mode ("BOGUS"))
          false = TFCall.dilation2d [1, 2, 2, 1] [1, 2, 2, 1] ("BOGUS") := by
  obtain ⟨h1, h2⟩ := c10_unknown_mode_amended ("BOGUS") (by decide)
    [⟨7, 3, 2, 2⟩] [2, 2] [2, 2] [2, 2] (by decide)
  exact ⟨by simpa using h1, by simpa using h2⟩

/-- Python-level failures of `dilated_maxpool_with_argmax` as embedded
here: the failed `assert self.spatial_size == 2`, the `AttributeError`
raised when `self.pads` is read without ever having been assigned, and
the `ValueError` of the native pooling primitive on a padding string it
does not accept. -/
inductive PyError where
  | assertionError
  | attributeError
  | valueError
deriving DecidableEq, Repr

/-- Outcome of a completed `dilated_maxpool_with_argmax` run: the branch
taken, the padding string handed to the native primitive, the pads in
effect, and whether the returned indices were remapped. -/
inductive ArgmaxBranch where
  | custom (pads : List Int)
  | native (padding_arg : String) (pads : List Int) (remapped : Bool)
deriving DecidableEq, Repr

/-- Per-axis parameters zipped from the parallel attribute lists
(`in_spatial`, `kernel_shape`, `dilations`, `strides`). -/
def mkAxesN : List Int → List Int → List Int → List Int → List AxisP
  | n :: ns, k :: ks, d :: ds, s :: ss => ⟨n, k, d, s⟩ :: mkAxesN ns ks ds ss
  | _, _, _, _ => []

/-- Shallow embedding of the control flow of
`DilatedPooling.dilated_maxpool_with_argmax`.  The assert on the spatial
rank fires first, before any computation.  The custom branch (non-trivial
dilations or forced) always calls `_pad_input`, which assigns
`self.pads`.  In the native branch `_pad_input` is called only for
explicit or SAME_LOWER padding; for SAME_UPPER or a plain mode string the
trailing `np.count_nonzero(self.pads)` reads an attribute that was never
created and raises `AttributeError` (for a string the native primitive
accepts; a string it rejects raises its own `ValueError` first). -/
def dilated_maxpool_with_argmax_flow
    (in_spatial kernel strides dilations : List Int) (padding : Padding)
    (ceil_mode force_custom_impl : Bool) : Except PyError ArgmaxBranch :=
  let r := kernel.length
  if r == 2 then
    let axes := mkAxesN in_spatial kernel dilations strides
    if (dilations != List.replicate r 1) || force_custom_impl then
      Except.ok (ArgmaxBranch.custom (pad_input_pads padding ceil_mode axes))
    else
      match padding with
      | Padding.explicitPads p =>
          let pads := pad_input_pads (Padding.explicitPads p) ceil_mode axes
          Except.ok (ArgmaxBranch.native ("VALID") pads
            (pads.any (fun x => x != 0)))
      | Padding.mode s =>
          if strLower s == "same_lower" then
            let pads := pad_input_pads (Padding.mode s) ceil_mode axes
            Except.ok (ArgmaxBranch.native ("VALID") pads
              (pads.any (fun x => x != 0)))
          else if strLower s == "same_upper" then
            Except.error PyError.attributeError
          else if s == "VALID" || s == "SAME" then
            Except.error PyError.attributeError
          else Except.error PyError.valueError
  else Except.error PyError.assertionError

/-- C8 (evaluation at the failing input): for a rank-2 input with
dilations `[1,1]`, padding the string `"VALID"` and no forcing,
`dilated_maxpool_with_argmax` does not complete: after pooling it
evaluates `np.count_nonzero(self.pads)`, but no statement on this path
ever assigned `self.pads`, so the call raises `AttributeError` instead of
returning the indices unchanged. -/
theorem c8_valid_argmax_attribute_error :
    dilated_maxpool_with_argmax_flow [4, 4] [2, 2] [1, 1] [1, 1]
        (Padding.mode ("VALID")) false false
      = Except.error PyError.attributeError := rfl

/-- C9: invoking `dilated_maxpool_with_argmax` with spatial rank different
from 2 fails at the initial `assert self.spatial_size == 2`, before any
padding, reduction or pooling is performed. -/
theorem c9_rank_assert (in_spatial kernel strides dilations : List Int)
    (padding : Padding) (ceil_mode force_custom_impl : Bool)
    (h : kernel.length ≠ 2) :
    dilated_maxpool_with_argmax_flow in_spatial kernel strides dilations
        padding ceil_mode force_custom_impl
      = Except.error PyError.assertionError := by
  have hb : (kernel.length == 2) = false := beq_eq_false_iff_ne.mpr h
  simp [dilated_maxpool_with_argmax_flow, hb]

/-- Witness for C9 at spatial rank 3. -/
theorem c9_rank_assert_witness :
    dilated_maxpool_with_argmax_flow [3, 3, 3] [2, 2, 2] [1, 1, 1] [1, 1, 1]
        (Padding.mode ("VALID")) false false
      = Except.error PyError.assertionError :=
  c9_rank_assert [3, 3, 3] [2, 2, 2] [1, 1, 1] [1, 1, 1]
    (Padding.mode ("VALID")) false false (by decide)

end OnnxTf
